import Mathlib

/-!
# Verification of the ioTube witness service startup and instruction builders

Shallow embedding of `witness-service/cmd/witness/main.go` and
`witness-service/util/instruction/execute_transaction.go`.

Go machine integers are modelled as `Nat`/`Int` with explicit reduction
modulo `2 ^ w` at the conversion points appearing in the source
(`uint8(...)`, `uint16(...)`, `uint64(...)`, `height++` on `uint64`).
Fallible Go paths (`log.Fatalf`, returned errors, `panic`) are modelled
with `Except`/`Option`.  External collaborator libraries (chain clients,
bech32 address parsing, the address decoders of the `util` package) are
parameters of the embedding, gathered in an `Externals` record, exactly
as the spec treats them: specified only at their interface.
-/

namespace IoTube

/-- A Solana public key (`solcommon.PublicKey`); the witness code never
inspects its bytes, so it is modelled as an opaque numeric identifier. -/
structure SolPubKey where
  val : Nat
  deriving DecidableEq, Repr

/-- `soltypes.AccountMeta`: an account reference inside an instruction. -/
structure AccountMeta where
  pubKey : SolPubKey
  isSigner : Bool
  isWritable : Bool
  deriving DecidableEq, Repr

/-- `soltypes.Instruction`: program id, account list, serialized data. -/
structure Instruction where
  programID : SolPubKey
  accounts : List AccountMeta
  data : List Nat
  deriving DecidableEq, Repr

/-- `instruction.ExecuteTransactionParam` (`execute_transaction.go`).
The field name `RecordTranaction` keeps the source's spelling. -/
structure ExecuteTransactionParam where
  Governance : SolPubKey
  Proposal : SolPubKey
  VoteRecord : SolPubKey
  RecordTranaction : SolPubKey
  TransactionAccounts : List AccountMeta
  deriving DecidableEq, Repr

/-- Modelled from the spec: `GovernanceInstructionType` and
`bincode.SerializeData` are outside `src/` (the former lives elsewhere in
this repository, the latter in the solana-go-sdk collaborator).  The spec
describes the payload as "a tagged, fixed-field binary record" with no
further fields, so the serializer emits the single instruction tag byte
and, being defined on this record, never fails. -/
def serializeGovernanceRecord (tag : Nat) : Except String (List Nat) :=
  .ok [tag % 256]

/-- `instruction.ExecuteTransaction` (`execute_transaction.go` lines
19–45).  A serialization error would `panic` in Go, modelled as `none`. -/
def ExecuteTransaction (programID : SolPubKey) (param : ExecuteTransactionParam) :
    Option Instruction :=
  match serializeGovernanceRecord 16 with
  | .error _ => none
  | .ok data =>
    some { programID := programID
           accounts :=
             [ { pubKey := param.Governance, isSigner := false, isWritable := false }
             , { pubKey := param.Proposal, isSigner := false, isWritable := false }
             , { pubKey := param.VoteRecord, isSigner := false, isWritable := false }
             , { pubKey := param.RecordTranaction, isSigner := false, isWritable := true }
             ] ++ param.TransactionAccounts
           data := data }

/-! ## Hex decoding (`encoding/hex`, `common.FromHex`) -/

/-- `encoding/hex.fromHexChar`: value of one hex digit. -/
def hexDigitVal (c : Char) : Option Nat :=
  if '0' ≤ c ∧ c ≤ '9' then some (c.toNat - '0'.toNat)
  else if 'a' ≤ c ∧ c ≤ 'f' then some (c.toNat - 'a'.toNat + 10)
  else if 'A' ≤ c ∧ c ≤ 'F' then some (c.toNat - 'A'.toNat + 10)
  else none

/-- `encoding/hex.DecodeString`: strict decoding; any invalid digit or an
odd length is an error (modelled as `none`). -/
def hexDecodeList : List Char → Option (List Nat)
  | [] => some []
  | [_] => none
  | c1 :: c2 :: rest =>
    match hexDigitVal c1, hexDigitVal c2, hexDecodeList rest with
    | some h, some l, some bs => some ((16 * h + l) :: bs)
    | _, _, _ => none

/-- Strict hex decoding of a string. -/
def hexDecodeString (s : String) : Option (List Nat) := hexDecodeList s.data

/-- `common.Hex2Bytes` semantics: decode hex pairs, silently stopping at
the first invalid digit or dangling odd character (the Go helper ignores
the decode error and keeps the bytes produced so far). -/
def hex2BytesList : List Char → List Nat
  | [] => []
  | [_] => []
  | c1 :: c2 :: rest =>
    match hexDigitVal c1, hexDigitVal c2 with
    | some h, some l => (16 * h + l) :: hex2BytesList rest
    | _, _ => []

/-- `common.FromHex`: strip an optional `0x`/`0X`, left-pad an odd-length
string with `0`, then decode leniently. -/
def fromHex (s : String) : List Nat :=
  let cs := s.data
  let cs := if cs.take 2 = ['0', 'x'] ∨ cs.take 2 = ['0', 'X'] then cs.drop 2 else cs
  let cs := if cs.length % 2 = 1 then '0' :: cs else cs
  hex2BytesList cs

/-- Big-endian value of a byte sequence. -/
def bytesToNat (bs : List Nat) : Nat := bs.foldl (fun a b => 256 * a + b % 256) 0

/-- A 20-byte Ethereum address (`common.Address`), as its big-endian value
(necessarily < 2 ^ 160). -/
structure EthAddress where
  val : Nat
  deriving DecidableEq, Repr

/-- `common.BytesToAddress`: keep only the last 20 bytes (cropping from
the left), left-padding shorter inputs with zeros. -/
def bytesToEthAddress (bs : List Nat) : EthAddress :=
  ⟨bytesToNat ((bs.map (· % 256)).drop (bs.length - 20))⟩

/-- `common.HexToAddress`. -/
def hexToAddress (s : String) : EthAddress := bytesToEthAddress (fromHex s)

/-- Big-endian bytes of a value, padded/cropped to `k` bytes. -/
def natToBytesBE : Nat → Nat → List Nat
  | 0, _ => []
  | k + 1, n => natToBytesBE k (n / 256) ++ [n % 256]

/-! ## Key decoding and sign-handler selection (`main.go` lines 154–189) -/

/-- Order of the secp256k1 group, used by geth's `crypto.toECDSA` to
reject out-of-range scalars. -/
def secp256k1N : Nat :=
  0xfffffffffffffffffffffffffffffffebaaedce6af48a03bbfd25e8cd0364141

/-- `crypto.HexToECDSA`: strict hex decode, then require exactly 32 bytes
and a scalar in `(0, N)`; the resulting key is its scalar value. -/
def hexToECDSA (s : String) : Option Nat :=
  match hexDecodeString s with
  | none => none
  | some bs =>
    if bs.length = 32 then
      let d := bytesToNat bs
      if d = 0 ∨ secp256k1N ≤ d then none else some d
    else none

/-- `ed25519.PrivateKeySize`. -/
def ed25519PrivateKeySize : Nat := 64

/-- `witness.SignHandler`: one variant per signature scheme, holding the
key material it was constructed with. -/
inductive SignHandler where
  | secp256k1 (d : Nat)
  | ed25519 (key : List Nat)
  deriving DecidableEq, Repr

/-- `util.AddressDecoder` variants (`NewETHAddressDecoder` /
`NewSOLAddressDecoder`). -/
inductive AddressDecoder where
  | eth
  | sol
  deriving DecidableEq, Repr

/-- The `switch cfg.DestinationChain` block of `main` (lines 158–189):
select the address decoder and, when a private key is configured, the
sign handler; a malformed key is process-fatal (`log.Fatalf`, modelled
as `.error`). -/
def setupSigner (destinationChain privateKey : String) :
    Except String (Option SignHandler × AddressDecoder) :=
  if destinationChain = "solana" then
    if privateKey = "" then .ok (none, .sol)
    else
      match hexDecodeString privateKey with
      | none => .error "failed to decode private key"
      | some bs =>
        if bs.length ≠ ed25519PrivateKeySize then .error "invalid private key length"
        else .ok (some (.ed25519 bs), .sol)
  else
    if privateKey = "" then .ok (none, .eth)
    else
      match hexToECDSA privateKey with
      | none => .error "failed to decode private key"
      | some d => .ok (some (.secp256k1 d), .eth)

/-! ## Configuration (`main.go` lines 38–77) -/

/-- One entry of a cashier's `tokenPairs` list. -/
structure TokenPairCfg where
  Token1 : String
  Token2 : String
  deriving DecidableEq, Repr

/-- One entry of a cashier's `decimalRound` list. -/
structure DecimalRoundCfg where
  Token1 : String
  Amount : Int
  deriving DecidableEq, Repr

/-- A cashier's `Reverse` sub-configuration. -/
structure ReverseCfg where
  TransferTableName : String
  CashierContractAddress : String
  Tokens : List String
  deriving DecidableEq, Repr

/-- One element of `Configuration.Cashiers`. -/
structure CashierCfg where
  ID : String
  RelayerURL : String
  CashierContractAddress : String
  TokenSafeContractAddress : String
  ValidatorContractAddress : String
  TransferTableName : String
  TokenPairs : List TokenPairCfg
  DecimalRound : List DecimalRoundCfg
  StartBlockHeight : Int
  Reverse : ReverseCfg
  QPSLimit : Nat
  DisablePull : Bool
  deriving DecidableEq, Repr

/-- The witness service `Configuration` (database, webhooks and ports are
collaborators outside the core and are omitted). -/
structure Configuration where
  Chain : String
  ClientURL : String
  RelayerURL : String
  PrivateKey : String
  ConfirmBlockNumber : Int
  BatchSize : Int
  Interval : Nat
  DisableTransferSubmit : Bool
  Cashiers : List CashierCfg
  DestinationChain : String
  deriving DecidableEq, Repr

/-- Go conversion `uint8(n)` of a signed integer: the low 8 bits. -/
def toUint8 (n : Int) : Nat := (n.emod 256).toNat

/-- Go conversion `uint16(n)`. -/
def toUint16 (n : Int) : Nat := (n.emod 65536).toNat

/-- Go conversion `uint64(n)`. -/
def toUint64 (n : Int) : Nat := (n.emod (2 ^ 64)).toNat

/-! ## External collaborators -/

/-- A destination-chain address as produced by a `util.AddressDecoder`
(`util.Address`); its byte representation is all the witness uses. -/
structure UAddr where
  bytes : List Nat
  deriving DecidableEq, Repr

/-- `util.ETHAddressToAddress`: wrap a 20-byte Ethereum address. -/
def ethAddressToAddress (a : EthAddress) : UAddr := ⟨natToBytesBE 20 a.val⟩

/-- Interfaces of the external libraries `main` calls: iotex bech32
address parsing (`address.FromString`, fallible, yielding the address
bytes), the two address decoders' `DecodeString`, and base58 key parsing
(`solcommon.PublicKeyFromString`, total in Go). -/
structure Externals where
  ioFromString : String → Option (List Nat)
  ethDecodeString : String → Option UAddr
  solDecodeString : String → Option UAddr
  solPubKeyFromString : String → SolPubKey

/-- `destAddrDecoder.DecodeString`, dispatched on the selected variant. -/
def Externals.decodeString (ext : Externals) : AddressDecoder → String → Option UAddr
  | .eth => ext.ethDecodeString
  | .sol => ext.solDecodeString

/-! ## Cashier construction (`main.go` lines 202–375) -/

/-- Insert into an association list modelling a Go map assignment
`m[k] = v`: overwrite an existing key, else append. -/
def insertOver {κ υ : Type} [DecidableEq κ] (m : List (κ × υ)) (k : κ) (v : υ) :
    List (κ × υ) :=
  if (List.lookup k m).isSome then
    m.map (fun kv => if kv.1 = k then (k, v) else kv)
  else m ++ [(k, v)]

/-- Turn an optional value into an `Except`, with a `log.Fatalf` message. -/
def req {α : Type} (msg : String) : Option α → Except String α
  | none => .error msg
  | some a => .ok a

/-- Arguments of a `witness.NewRecorder` / `witness.NewSOLRecorder` call,
keyed by the source chain's native address type `κ`. -/
structure RecorderArgs (κ : Type) where
  table : String
  pairs : List (κ × UAddr)
  decimalRound : List (κ × Int)
  decoder : AddressDecoder
  deriving DecidableEq, Repr

/-- iotex branch: build the `pairs` map (lines 216–230), with the
duplicate-key fatal check. -/
def buildPairsIotex (ext : Externals) (dec : AddressDecoder) :
    List TokenPairCfg → List (EthAddress × UAddr) →
    Except String (List (EthAddress × UAddr))
  | [], m => .ok m
  | p :: rest, m =>
    match ext.ioFromString p.Token1 with
    | none => .error ("failed to parse iotex address " ++ p.Token1)
    | some bs =>
      let key := bytesToEthAddress bs
      if (List.lookup key m).isSome then .error ("duplicate token key " ++ p.Token1)
      else
        match ext.decodeString dec p.Token2 with
        | none => .error ("failed to decode destination address " ++ p.Token2)
        | some addr => buildPairsIotex ext dec rest (m ++ [(key, addr)])

/-- iotex branch: build the `decimalRound` map (lines 231–238). -/
def buildDecimalRoundIotex (ext : Externals) :
    List DecimalRoundCfg → List (EthAddress × Int) →
    Except String (List (EthAddress × Int))
  | [], m => .ok m
  | r :: rest, m =>
    match ext.ioFromString r.Token1 with
    | none => .error ("failed to parse token address " ++ r.Token1)
    | some bs => buildDecimalRoundIotex ext rest (insertOver m (bytesToEthAddress bs) r.Amount)

/-- Arguments of a `witness.NewTokenCashier` call (iotex branch). -/
structure TokenCashierArgs where
  id : String
  relayerURL : String
  cashierContract : List Nat
  validatorBytes : List Nat
  recorder : RecorderArgs EthAddress
  startBlockHeight : Nat
  decoder : AddressDecoder
  deriving DecidableEq, Repr

/-- iotex branch body (lines 211–264). -/
def buildIotexCashier (ext : Externals) (dec : AddressDecoder) (cc : CashierCfg) :
    Except String TokenCashierArgs := do
  let cashierBytes ← req ("failed to parse cashier contract address " ++ cc.CashierContractAddress)
    (ext.ioFromString cc.CashierContractAddress)
  let pairs ← buildPairsIotex ext dec cc.TokenPairs []
  let decimalRound ← buildDecimalRoundIotex ext cc.DecimalRound []
  let validator ← req ("failed to decode validator contract address " ++ cc.ValidatorContractAddress)
    (ext.decodeString dec cc.ValidatorContractAddress)
  .ok { id := cc.ID
        relayerURL := cc.RelayerURL
        cashierContract := cashierBytes
        validatorBytes := validator.bytes
        recorder := { table := cc.TransferTableName, pairs := pairs,
                      decimalRound := decimalRound, decoder := dec }
        startBlockHeight := toUint64 cc.StartBlockHeight
        decoder := dec }

/-- ethereum branch: build the `pairs` map (lines 278–288). -/
def buildPairsEthereum (ext : Externals) :
    List TokenPairCfg → List (EthAddress × UAddr) →
    Except String (List (EthAddress × UAddr))
  | [], m => .ok m
  | p :: rest, m =>
    let key := hexToAddress p.Token1
    if (List.lookup key m).isSome then .error ("duplicate token key " ++ p.Token1)
    else
      match ext.ioFromString p.Token2 with
      | none => .error ("failed to parse iotex address " ++ p.Token2)
      | some bs =>
        buildPairsEthereum ext rest (m ++ [(key, ethAddressToAddress (bytesToEthAddress bs))])

/-- ethereum branch: the reverse-recorder token map (lines 291–294), each
token hex-parsed and mapped to itself. -/
def buildReversePairs : List String → List (EthAddress × UAddr) → List (EthAddress × UAddr)
  | [], m => m
  | t :: rest, m =>
    buildReversePairs rest (insertOver m (hexToAddress t) (ethAddressToAddress (hexToAddress t)))

/-- Arguments of a `witness.NewTokenCashierOnEthereum` call. -/
structure EthereumCashierArgs where
  id : String
  relayerURL : String
  cashierContract : EthAddress
  tokenSafeContract : EthAddress
  validatorContract : EthAddress
  recorder : RecorderArgs EthAddress
  startBlockHeight : Nat
  confirmBlockNumber : Nat
  reverseRecorder : Option (RecorderArgs EthAddress)
  reverseCashierContract : EthAddress
  deriving DecidableEq, Repr

/-- ethereum / heco / bsc / matic / polis branch body (lines 273–326).
Note from the source: the forward recorder is constructed with the empty
decimal-round map `map[common.Address]int{}`, and the confirm-block depth
is `uint8(cfg.ConfirmBlockNumber)`. -/
def buildEthereumCashier (ext : Externals) (dec : AddressDecoder)
    (confirmBlockNumber : Int) (cc : CashierCfg) : Except String EthereumCashierArgs := do
  let vBytes ← req "failed to parse validator contract address"
    (ext.ioFromString cc.ValidatorContractAddress)
  let pairs ← buildPairsEthereum ext cc.TokenPairs []
  let reverseRecorder : Option (RecorderArgs EthAddress) :=
    if cc.Reverse.CashierContractAddress ≠ "" ∧ cc.Reverse.TransferTableName ≠ "" then
      some { table := cc.Reverse.TransferTableName
             pairs := buildReversePairs cc.Reverse.Tokens []
             decimalRound := []
             decoder := dec }
    else none
  .ok { id := cc.ID
        relayerURL := cc.RelayerURL
        cashierContract := hexToAddress cc.CashierContractAddress
        tokenSafeContract := hexToAddress cc.TokenSafeContractAddress
        validatorContract := bytesToEthAddress vBytes
        recorder := { table := cc.TransferTableName, pairs := pairs,
                      decimalRound := [], decoder := dec }
        startBlockHeight := toUint64 cc.StartBlockHeight
        confirmBlockNumber := toUint8 confirmBlockNumber
        reverseRecorder := reverseRecorder
        reverseCashierContract := hexToAddress cc.Reverse.CashierContractAddress }

/-- solana branch: build the `pairs` map (lines 334–345). -/
def buildPairsSolana (ext : Externals) (dec : AddressDecoder) :
    List TokenPairCfg → List (SolPubKey × UAddr) →
    Except String (List (SolPubKey × UAddr))
  | [], m => .ok m
  | p :: rest, m =>
    let token := ext.solPubKeyFromString p.Token1
    if (List.lookup token m).isSome then .error ("duplicate token key " ++ p.Token1)
    else
      match ext.decodeString dec p.Token2 with
      | none => .error ("failed to parse iotex address " ++ p.Token2)
      | some t2 => buildPairsSolana ext dec rest (m ++ [(token, t2)])

/-- solana branch: build the `decimalRound` map (lines 346–350);
`PublicKeyFromString` is total, so no failure path exists here. -/
def buildDecimalRoundSolana (ext : Externals) :
    List DecimalRoundCfg → List (SolPubKey × Int) → List (SolPubKey × Int)
  | [], m => m
  | r :: rest, m =>
    buildDecimalRoundSolana ext rest (insertOver m (ext.solPubKeyFromString r.Token1) r.Amount)

/-- Arguments of a `witness.NewTokenCashierOnSolana` call. -/
structure SolanaCashierArgs where
  id : String
  relayerURL : String
  cashierContract : SolPubKey
  validatorContract : EthAddress
  recorder : RecorderArgs SolPubKey
  startBlockHeight : Nat
  qpsLimit : Nat
  disablePull : Bool
  deriving DecidableEq, Repr

/-- solana branch body (lines 329–372). -/
def buildSolanaCashier (ext : Externals) (dec : AddressDecoder) (cc : CashierCfg) :
    Except String SolanaCashierArgs := do
  let vBytes ← req "failed to parse validator contract address"
    (ext.ioFromString cc.ValidatorContractAddress)
  let pairs ← buildPairsSolana ext dec cc.TokenPairs []
  let decimalRound := buildDecimalRoundSolana ext cc.DecimalRound []
  .ok { id := cc.ID
        relayerURL := cc.RelayerURL
        cashierContract := ext.solPubKeyFromString cc.CashierContractAddress
        validatorContract := bytesToEthAddress vBytes
        recorder := { table := cc.TransferTableName, pairs := pairs,
                      decimalRound := decimalRound, decoder := dec }
        startBlockHeight := toUint64 cc.StartBlockHeight
        qpsLimit := cc.QPSLimit
        disablePull := cc.DisablePull }

/-- Build each configured cashier in order, stopping at the first fatal
error (each iteration of the Go `for` loop ends in `log.Fatalf` on any
failure). -/
def buildAll {α : Type} (f : CashierCfg → Except String α) :
    List CashierCfg → Except String (List α)
  | [] => .ok []
  | cc :: rest => do
    let a ← f cc
    let as ← buildAll f rest
    .ok (a :: as)

/-- The cashiers of one service, tagged by the source-chain branch taken. -/
inductive CashiersBuilt where
  | iotex (cs : List TokenCashierArgs)
  | ethereum (cs : List EthereumCashierArgs)
  | solana (cs : List SolanaCashierArgs)
  deriving DecidableEq, Repr

/-- Chains sharing the ethereum branch via `fallthrough` (lines 265–268). -/
def evmChains : List String := ["heco", "bsc", "matic", "polis", "ethereum"]

/-- The `switch cfg.Chain` block of `main` (lines 203–375). -/
def buildCashiers (ext : Externals) (dec : AddressDecoder) (cfg : Configuration) :
    Except String CashiersBuilt :=
  if cfg.Chain = "iotex" then
    (buildAll (buildIotexCashier ext dec) cfg.Cashiers).map .iotex
  else if cfg.Chain ∈ evmChains then
    (buildAll (buildEthereumCashier ext dec cfg.ConfirmBlockNumber) cfg.Cashiers).map .ethereum
  else if cfg.Chain = "solana" then
    (buildAll (buildSolanaCashier ext dec) cfg.Cashiers).map .solana
  else .error ("unknown chain name " ++ cfg.Chain)

/-- Relayer-URL inheritance (lines 191–200). -/
def resolveRelayerURLs (cfg : Configuration) : Configuration :=
  if cfg.RelayerURL = "" then cfg
  else
    { cfg with
      Cashiers := cfg.Cashiers.map fun cc =>
        if cc.RelayerURL.startsWith ":" then
          { cc with RelayerURL := cfg.RelayerURL ++ cc.RelayerURL }
        else if cc.RelayerURL = "" then { cc with RelayerURL := cfg.RelayerURL }
        else cc }

/-- Scalar arguments of the `witness.NewService` call (lines 377–383). -/
structure ServiceArgs where
  batchSize : Nat
  interval : Nat
  disableTransferSubmit : Bool
  deriving DecidableEq, Repr

/-- The scalar arguments `NewService` receives from the configuration:
a single `uint16(cfg.BatchSize)`, `cfg.Interval` and
`cfg.DisableTransferSubmit` for the whole service. -/
def serviceArgsOf (cfg : Configuration) : ServiceArgs :=
  { batchSize := toUint16 cfg.BatchSize
    interval := cfg.Interval
    disableTransferSubmit := cfg.DisableTransferSubmit }

/-- Everything `main` has constructed once `service.Start` is reached. -/
structure Started where
  signHandler : Option SignHandler
  decoder : AddressDecoder
  cashiers : CashiersBuilt
  service : ServiceArgs
  deriving DecidableEq, Repr

/-- The startup phase of `main` (lines 154–386): sign-handler selection,
relayer-URL resolution, cashier construction, service construction.  Any
`log.Fatalf` is an `.error` and aborts everything after it. -/
def startup (ext : Externals) (cfg0 : Configuration) : Except String Started := do
  let sd ← setupSigner cfg0.DestinationChain cfg0.PrivateKey
  let cfg := resolveRelayerURLs cfg0
  let cashiers ← buildCashiers ext sd.2 cfg
  .ok { signHandler := sd.1
        decoder := sd.2
        cashiers := cashiers
        service := serviceArgsOf cfg }

/-! ## Bounded replay (`main.go` lines 392–422) -/

/-- Decimal value of a digit string. -/
def digitsToNat (cs : List Char) : Nat :=
  cs.foldl (fun a c => 10 * a + (c.toNat - '0'.toNat)) 0

/-- `strconv.ParseUint(s, 10, 64)`: non-empty, decimal digits only, and
within `uint64` range; anything else is an error. -/
def parseUint64 (cs : List Char) : Option Nat :=
  if cs = [] then none
  else if cs.all Char.isDigit then
    if digitsToNat cs < 2 ^ 64 then some (digitsToNat cs) else none
  else none

/-- Matching of `^([0-9]*)-([0-9]*)$` and extraction of the two groups:
the string must be digits, one dash, digits (either group may be empty). -/
def rangeSplitAux : List Char → List Char → Option (List Char × List Char)
  | _, [] => none
  | acc, c :: rest =>
    if c = '-' then
      if rest.all Char.isDigit then some (acc.reverse, rest) else none
    else if c.isDigit then rangeSplitAux (c :: acc) rest
    else none

/-- Split a `-blocks` item on the range regexp. -/
def rangeSplit (cs : List Char) : Option (List Char × List Char) := rangeSplitAux [] cs

/-- Parse one `-blocks` item into `(start, end)` (lines 396–413): a range
`a-b` via the regexp, otherwise a single height `h` giving `(h, h)`;
unparsable numbers are `log.Fatalf`. -/
def parseItem (cs : List Char) : Except String (Nat × Nat) :=
  match rangeSplit cs with
  | some (a, b) =>
    match parseUint64 a with
    | none => .error "invalid start"
    | some s =>
      match parseUint64 b with
      | none => .error "invalid end"
      | some e => .ok (s, e)
  | none =>
    match parseUint64 cs with
    | none => .error "invalid height"
    | some h => .ok (h, h)

/-- Outcome of a replay run: normal completion, a `log.Fatalf`, or fuel
exhausted (the modelled run was cut off while the Go loop would continue). -/
inductive RunResult where
  | ok
  | fatal (msg : String)
  | outOfFuel
  deriving DecidableEq, Repr

/-- The loop `for height := start; height <= end; height++` (lines
414–418) with its `uint64` increment, returning the heights passed to
`service.ProcessOneBlock` in order.  `fuel` bounds the number of modelled
iterations; the Go loop itself has no such bound. -/
def loopFrom (process : Nat → Except String Unit) (endH : Nat) :
    Nat → Nat → List Nat × RunResult
  | fuel, h =>
    if endH < h then ([], .ok)
    else
      match fuel with
      | 0 => ([], .outOfFuel)
      | fuel' + 1 =>
        match process h with
        | .error e => ([h], .fatal e)
        | .ok _ =>
          let p := loopFrom process endH fuel' ((h + 1) % 2 ^ 64)
          (h :: p.1, p.2)

/-- Run one `-blocks` item: parse it, then run the height loop. -/
def runItem (process : Nat → Except String Unit) (fuel : Nat) (cs : List Char) :
    List Nat × RunResult :=
  match parseItem cs with
  | .error e => ([], .fatal e)
  | .ok se => loopFrom process se.2 fuel se.1

/-- Run the comma-separated items left to right, stopping at the first
`log.Fatalf` (and at fuel exhaustion). -/
def runBlocks (process : Nat → Except String Unit) (fuel : Nat) :
    List (List Char) → List Nat × RunResult
  | [] => ([], .ok)
  | item :: rest =>
    match runItem process fuel item with
    | (l, .ok) =>
      let p := runBlocks process fuel rest
      (l ++ p.1, p.2)
    | (l, r) => (l, r)

/-- `strings.Split(s, ",")`. -/
def splitComma : List Char → List (List Char)
  | [] => [[]]
  | c :: rest =>
    match splitComma rest with
    | [] => [[]]
    | grp :: grps => if c = ',' then [] :: grp :: grps else (c :: grp) :: grps

/-- The whole bounded-replay mode on a `-blocks` argument. -/
def replayRun (process : Nat → Except String Unit) (fuel : Nat) (blocks : List Char) :
    List Nat × RunResult :=
  runBlocks process fuel (splitComma blocks)

/-! ## Theorems -/

/-- Is the selected handler an ed25519 one? -/
def isEd25519Handler : Option SignHandler → Bool
  | some (.ed25519 _) => true
  | _ => false

/-- Is the selected handler a secp256k1 one? -/
def isSecpHandler : Option SignHandler → Bool
  | some (.secp256k1 _) => true
  | _ => false

/-- C1: for every program id and parameter record, `ExecuteTransaction`
returns an instruction whose data is the serialization of the single
governance instruction tag 16 and whose account list is the four fixed
accounts Governance, Proposal, VoteRecord, RecordTranaction in that
order, followed by the parameter's `TransactionAccounts` in their given
order. -/
theorem executeTransaction_layout (pid : SolPubKey) (param : ExecuteTransactionParam) :
    ∃ ins, ExecuteTransaction pid param = some ins ∧
      serializeGovernanceRecord 16 = .ok ins.data ∧
      ins.accounts =
        [ { pubKey := param.Governance, isSigner := false, isWritable := false },
          { pubKey := param.Proposal, isSigner := false, isWritable := false },
          { pubKey := param.VoteRecord, isSigner := false, isWritable := false },
          { pubKey := param.RecordTranaction, isSigner := false, isWritable := true } ]
        ++ param.TransactionAccounts :=
  ⟨_, rfl, rfl, rfl⟩

/-- C9: `ExecuteTransaction` is total (the panic branch guarding
serialization of the constant instruction tag is unreachable) and
deterministic, and among the four fixed accounts none is a signer and
only the fourth, `RecordTranaction`, is writable. -/
theorem executeTransaction_total_deterministic (pid pid' : SolPubKey)
    (param param' : ExecuteTransactionParam) (h1 : pid = pid') (h2 : param = param') :
    (ExecuteTransaction pid param).isSome = true ∧
    ExecuteTransaction pid param = ExecuteTransaction pid' param' ∧
    (ExecuteTransaction pid param).map (fun ins =>
        ((ins.accounts.take 4).map AccountMeta.isSigner,
         (ins.accounts.take 4).map AccountMeta.isWritable))
      = some ([false, false, false, false], [false, false, false, true]) := by
  subst h1; subst h2
  exact ⟨rfl, rfl, rfl⟩

/-- A concrete program id for evaluating the instruction builder. -/
def samplePubKey : SolPubKey := ⟨7⟩

/-- A concrete parameter record with one extra transaction account. -/
def sampleExecParam : ExecuteTransactionParam :=
  { Governance := ⟨1⟩, Proposal := ⟨2⟩, VoteRecord := ⟨3⟩, RecordTranaction := ⟨4⟩
    TransactionAccounts := [{ pubKey := ⟨5⟩, isSigner := true, isWritable := true }] }

/-- Witness for C9 at a concrete program id and parameter record. -/
theorem executeTransaction_total_deterministic_witness :
    (ExecuteTransaction samplePubKey sampleExecParam).isSome = true ∧
    ExecuteTransaction samplePubKey sampleExecParam
      = ExecuteTransaction samplePubKey sampleExecParam ∧
    (ExecuteTransaction samplePubKey sampleExecParam).map (fun ins =>
        ((ins.accounts.take 4).map AccountMeta.isSigner,
         (ins.accounts.take 4).map AccountMeta.isWritable))
      = some ([false, false, false, false], [false, false, false, true]) :=
  executeTransaction_total_deterministic samplePubKey samplePubKey
    sampleExecParam sampleExecParam rfl rfl

/-- C2 (amended): the signature-scheme variant is selected solely by the
configured destination chain; whenever the selection stage succeeds, a
"solana" destination yields the Solana address decoder and any handler
constructed is ed25519, every other destination yields the ETH address
decoder and any handler constructed is secp256k1, and a handler is
constructed exactly when the private key is non-empty (and, as success
presupposes, well-formed).  No other variant is ever selected. -/
theorem setupSigner_selection (dest pk : String) (res : Option SignHandler × AddressDecoder)
    (h : setupSigner dest pk = .ok res) :
    (dest = "solana" →
      res.2 = AddressDecoder.sol ∧ (res.1.isSome = true → isEd25519Handler res.1 = true)) ∧
    (dest ≠ "solana" →
      res.2 = AddressDecoder.eth ∧ (res.1.isSome = true → isSecpHandler res.1 = true)) ∧
    (res.1.isSome = true ↔ pk ≠ "") := by
  unfold setupSigner at h
  by_cases hd : dest = "solana"
  · rw [if_pos hd] at h
    by_cases hp : pk = ""
    · rw [if_pos hp] at h
      injection h with h'
      subst h'
      exact ⟨fun _ => ⟨rfl, fun hs => by simp at hs⟩, fun hne => absurd hd hne, by simp [hp]⟩
    · rw [if_neg hp] at h
      cases hdec : hexDecodeString pk with
      | none => rw [hdec] at h; exact Except.noConfusion h
      | some bs =>
        rw [hdec] at h
        dsimp only at h
        by_cases hl : bs.length ≠ ed25519PrivateKeySize
        · rw [if_pos hl] at h; exact Except.noConfusion h
        · rw [if_neg hl] at h
          injection h with h'
          subst h'
          exact ⟨fun _ => ⟨rfl, fun _ => rfl⟩, fun hne => absurd hd hne, by simp [hp]⟩
  · rw [if_neg hd] at h
    by_cases hp : pk = ""
    · rw [if_pos hp] at h
      injection h with h'
      subst h'
      exact ⟨fun hds => absurd hds hd, fun _ => ⟨rfl, fun hs => by simp at hs⟩, by simp [hp]⟩
    · rw [if_neg hp] at h
      cases hdec : hexToECDSA pk with
      | none => rw [hdec] at h; exact Except.noConfusion h
      | some d =>
        rw [hdec] at h
        injection h with h'
        subst h'
        exact ⟨fun hds => absurd hds hd, fun _ => ⟨rfl, fun _ => rfl⟩, by simp [hp]⟩

/-- C2 counterexample: with destination chain "ethereum" and an empty
configured private key, selection succeeds with the ETH decoder but no
secp256k1 sign handler is constructed at all, against the claim's
unconditional "a secp256k1 sign handler ... are constructed". -/
theorem setupSigner_empty_key_no_secp :
    setupSigner "ethereum" "" = .ok (none, AddressDecoder.eth) ∧
    isSecpHandler (none : Option SignHandler) = false :=
  ⟨rfl, rfl⟩

/-- A well-formed ed25519 private key: 64 zero bytes, hex encoded. -/
def hexKey128 : String := String.mk (List.replicate 128 '0')

/-- The selection result for `hexKey128` on the "solana" destination. -/
def edResSample : Option SignHandler × AddressDecoder :=
  (some (.ed25519 (List.replicate 64 0)), .sol)

/-- Witness for C2 at destination "solana" with a well-formed key. -/
theorem setupSigner_selection_witness :
    (("solana" : String) = "solana" →
      edResSample.2 = AddressDecoder.sol ∧
      (edResSample.1.isSome = true → isEd25519Handler edResSample.1 = true)) ∧
    (("solana" : String) ≠ "solana" →
      edResSample.2 = AddressDecoder.eth ∧
      (edResSample.1.isSome = true → isSecpHandler edResSample.1 = true)) ∧
    (edResSample.1.isSome = true ↔ hexKey128 ≠ "") :=
  setupSigner_selection "solana" hexKey128 edResSample rfl

/-- Externals instance used to evaluate the builders on concrete inputs:
every address string parses. -/
def extTrivial : Externals :=
  { ioFromString := fun _ => some [1]
    ethDecodeString := fun _ => some ⟨[2]⟩
    solDecodeString := fun _ => some ⟨[3]⟩
    solPubKeyFromString := fun s => ⟨s.length⟩ }

/-- A configuration whose private key is non-empty but not decodable hex. -/
def cfgBadKey : Configuration :=
  { Chain := "ethereum", ClientURL := "", RelayerURL := "", PrivateKey := "zz",
    ConfirmBlockNumber := 20, BatchSize := 100, Interval := 60,
    DisableTransferSubmit := false, Cashiers := [], DestinationChain := "ethereum" }

/-- The same configuration with an empty private key. -/
def cfgEmptyKey : Configuration := { cfgBadKey with PrivateKey := "" }

/-- C5: a non-empty malformed private key (not decodable hex on the
secp256k1 path; on the "solana" path any decode other than exactly the
ed25519 private-key length) makes startup fail before any cashier or the
service is constructed, whatever the external collaborators and cashier
configuration are; an empty private key never aborts the selection stage
and yields no sign handler. -/
theorem startup_malformed_key_fatal (ext : Externals) (cfg cfg' : Configuration)
    (h1 : cfg.PrivateKey ≠ "")
    (h2 : (cfg.DestinationChain ≠ "solana" ∧ hexDecodeString cfg.PrivateKey = none) ∨
          (cfg.DestinationChain = "solana" ∧
            ∀ bs, hexDecodeString cfg.PrivateKey = some bs →
              bs.length ≠ ed25519PrivateKeySize))
    (h3 : cfg'.PrivateKey = "") :
    (startup ext cfg).toOption = none ∧
    setupSigner cfg'.DestinationChain cfg'.PrivateKey =
      .ok (none, if cfg'.DestinationChain = "solana" then AddressDecoder.sol
                 else AddressDecoder.eth) := by
  constructor
  · have hs : ∃ e, setupSigner cfg.DestinationChain cfg.PrivateKey = .error e := by
      unfold setupSigner
      rcases h2 with ⟨hne, hdec⟩ | ⟨heq, hlen⟩
      · rw [if_neg hne, if_neg h1]
        have hx : hexToECDSA cfg.PrivateKey = none := by
          unfold hexToECDSA; rw [hdec]
        rw [hx]
        exact ⟨_, rfl⟩
      · rw [if_pos heq, if_neg h1]
        cases hdec : hexDecodeString cfg.PrivateKey with
        | none => exact ⟨_, rfl⟩
        | some bs =>
          dsimp only
          rw [if_pos (hlen bs hdec)]
          exact ⟨_, rfl⟩
    obtain ⟨e, he⟩ := hs
    unfold startup
    rw [he]
    rfl
  · by_cases hd : cfg'.DestinationChain = "solana" <;> simp [setupSigner, h3, hd]

/-- Witness for C5: startup with the undecodable key "zz" fails, and the
same configuration with an empty key passes the selection stage with no
handler. -/
theorem startup_malformed_key_fatal_witness :
    (startup extTrivial cfgBadKey).toOption = none ∧
    setupSigner cfgEmptyKey.DestinationChain cfgEmptyKey.PrivateKey =
      .ok (none, if cfgEmptyKey.DestinationChain = "solana" then AddressDecoder.sol
                 else AddressDecoder.eth) :=
  startup_malformed_key_fatal extTrivial cfgBadKey cfgEmptyKey (by decide)
    (Or.inl ⟨by decide, by decide⟩) rfl

/-! ## Elimination lemmas for successful cashier construction -/

/-- A successful iotex construction determines every argument. -/
theorem buildIotexCashier_ok {ext : Externals} {dec : AddressDecoder}
    {cc : CashierCfg} {args : TokenCashierArgs}
    (h : buildIotexCashier ext dec cc = .ok args) :
    ∃ cashierBytes pairs decimalRound validator,
      ext.ioFromString cc.CashierContractAddress = some cashierBytes ∧
      buildPairsIotex ext dec cc.TokenPairs [] = .ok pairs ∧
      buildDecimalRoundIotex ext cc.DecimalRound [] = .ok decimalRound ∧
      ext.decodeString dec cc.ValidatorContractAddress = some validator ∧
      args = { id := cc.ID
               relayerURL := cc.RelayerURL
               cashierContract := cashierBytes
               validatorBytes := validator.bytes
               recorder := { table := cc.TransferTableName, pairs := pairs,
                             decimalRound := decimalRound, decoder := dec }
               startBlockHeight := toUint64 cc.StartBlockHeight
               decoder := dec } := by
  unfold buildIotexCashier at h
  cases hc : ext.ioFromString cc.CashierContractAddress with
  | none => rw [hc] at h; exact Except.noConfusion h
  | some cashierBytes =>
    rw [hc] at h
    cases hp : buildPairsIotex ext dec cc.TokenPairs [] with
    | error e => rw [hp] at h; exact Except.noConfusion h
    | ok pairs =>
      rw [hp] at h
      cases hdr : buildDecimalRoundIotex ext cc.DecimalRound [] with
      | error e => rw [hdr] at h; exact Except.noConfusion h
      | ok decimalRound =>
        rw [hdr] at h
        cases hv : ext.decodeString dec cc.ValidatorContractAddress with
        | none => rw [hv] at h; exact Except.noConfusion h
        | some validator =>
          rw [hv] at h
          refine ⟨cashierBytes, pairs, decimalRound, validator, rfl, rfl, rfl, rfl, ?_⟩
          injection h with h'
          exact h'.symm

/-- A successful ethereum-family construction determines every argument. -/
theorem buildEthereumCashier_ok {ext : Externals} {dec : AddressDecoder} {n : Int}
    {cc : CashierCfg} {args : EthereumCashierArgs}
    (h : buildEthereumCashier ext dec n cc = .ok args) :
    ∃ vBytes pairs,
      ext.ioFromString cc.ValidatorContractAddress = some vBytes ∧
      buildPairsEthereum ext cc.TokenPairs [] = .ok pairs ∧
      args = { id := cc.ID
               relayerURL := cc.RelayerURL
               cashierContract := hexToAddress cc.CashierContractAddress
               tokenSafeContract := hexToAddress cc.TokenSafeContractAddress
               validatorContract := bytesToEthAddress vBytes
               recorder := { table := cc.TransferTableName, pairs := pairs,
                             decimalRound := [], decoder := dec }
               startBlockHeight := toUint64 cc.StartBlockHeight
               confirmBlockNumber := toUint8 n
               reverseRecorder :=
                 if cc.Reverse.CashierContractAddress ≠ "" ∧ cc.Reverse.TransferTableName ≠ "" then
                   some { table := cc.Reverse.TransferTableName
                          pairs := buildReversePairs cc.Reverse.Tokens []
                          decimalRound := []
                          decoder := dec }
                 else none
               reverseCashierContract := hexToAddress cc.Reverse.CashierContractAddress } := by
  unfold buildEthereumCashier at h
  cases hv : ext.ioFromString cc.ValidatorContractAddress with
  | none => rw [hv] at h; exact Except.noConfusion h
  | some vBytes =>
    rw [hv] at h
    cases hp : buildPairsEthereum ext cc.TokenPairs [] with
    | error e => rw [hp] at h; exact Except.noConfusion h
    | ok pairs =>
      rw [hp] at h
      refine ⟨vBytes, pairs, rfl, rfl, ?_⟩
      injection h with h'
      exact h'.symm

/-- A successful solana construction determines every argument. -/
theorem buildSolanaCashier_ok {ext : Externals} {dec : AddressDecoder}
    {cc : CashierCfg} {args : SolanaCashierArgs}
    (h : buildSolanaCashier ext dec cc = .ok args) :
    ∃ vBytes pairs,
      ext.ioFromString cc.ValidatorContractAddress = some vBytes ∧
      buildPairsSolana ext dec cc.TokenPairs [] = .ok pairs ∧
      args = { id := cc.ID
               relayerURL := cc.RelayerURL
               cashierContract := ext.solPubKeyFromString cc.CashierContractAddress
               validatorContract := bytesToEthAddress vBytes
               recorder := { table := cc.TransferTableName, pairs := pairs,
                             decimalRound := buildDecimalRoundSolana ext cc.DecimalRound [],
                             decoder := dec }
               startBlockHeight := toUint64 cc.StartBlockHeight
               qpsLimit := cc.QPSLimit
               disablePull := cc.DisablePull } := by
  unfold buildSolanaCashier at h
  cases hv : ext.ioFromString cc.ValidatorContractAddress with
  | none => rw [hv] at h; exact Except.noConfusion h
  | some vBytes =>
    rw [hv] at h
    cases hp : buildPairsSolana ext dec cc.TokenPairs [] with
    | error e => rw [hp] at h; exact Except.noConfusion h
    | ok pairs =>
      rw [hp] at h
      refine ⟨vBytes, pairs, rfl, rfl, ?_⟩
      injection h with h'
      exact h'.symm

/-! ## The decimal-round mapping, as the spec words it -/

/-- The key a configured iotex token string denotes: its parsed bytes as
a 20-byte address. -/
def ioKeyOf (ext : Externals) (t : String) : Option EthAddress :=
  (ext.ioFromString t).map bytesToEthAddress

/-- The key a configured solana token string denotes (total parse). -/
def solKeyOf (ext : Externals) (t : String) : Option SolPubKey :=
  some (ext.solPubKeyFromString t)

/-- One step of the decimal-round mapping the spec describes: parse the
entry's token to the source chain's native key type and record its
amount (overwriting, as Go map assignment does). -/
def decimalRoundStep {κ : Type} [DecidableEq κ] (parseKey : String → Option κ)
    (m : List (κ × Int)) (r : DecimalRoundCfg) : List (κ × Int) :=
  match parseKey r.Token1 with
  | none => m
  | some k => insertOver m k r.Amount

/-- The mapping the spec describes for `decimalRound`: the fold of the
configured entries. -/
def specDecimalRoundMap {κ : Type} [DecidableEq κ] (parseKey : String → Option κ)
    (entries : List DecimalRoundCfg) : List (κ × Int) :=
  entries.foldl (decimalRoundStep parseKey) []

/-- The step at a parsable token. -/
theorem decimalRoundStep_some {κ : Type} [DecidableEq κ] (parseKey : String → Option κ)
    (m : List (κ × Int)) (r : DecimalRoundCfg) (k : κ) (hk : parseKey r.Token1 = some k) :
    decimalRoundStep parseKey m r = insertOver m k r.Amount := by
  unfold decimalRoundStep; rw [hk]

/-- A successful iotex decimal-round build is the fold of the configured
entries over the parsed keys. -/
theorem buildDecimalRoundIotex_ok (ext : Externals) :
    ∀ (entries : List DecimalRoundCfg) (m out : List (EthAddress × Int)),
      buildDecimalRoundIotex ext entries m = .ok out →
      out = entries.foldl (decimalRoundStep (ioKeyOf ext)) m := by
  intro entries
  induction entries with
  | nil =>
    intro m out h
    injection h with h'
    exact h'.symm
  | cons r rest ih =>
    intro m out h
    unfold buildDecimalRoundIotex at h
    cases hr : ext.ioFromString r.Token1 with
    | none => rw [hr] at h; exact Except.noConfusion h
    | some bs =>
      rw [hr] at h
      rw [List.foldl_cons]
      have hk : ioKeyOf ext r.Token1 = some (bytesToEthAddress bs) := by
        unfold ioKeyOf; rw [hr]; rfl
      rw [decimalRoundStep_some (ioKeyOf ext) m r _ hk]
      exact ih _ _ h

/-- The solana decimal-round build is the fold of the configured entries. -/
theorem buildDecimalRoundSolana_eq (ext : Externals) :
    ∀ (entries : List DecimalRoundCfg) (m : List (SolPubKey × Int)),
      buildDecimalRoundSolana ext entries m
        = entries.foldl (decimalRoundStep (solKeyOf ext)) m := by
  intro entries
  induction entries with
  | nil => intro m; rfl
  | cons r rest ih =>
    intro m
    rw [List.foldl_cons]
    rw [decimalRoundStep_some (solKeyOf ext) m r _ rfl]
    exact ih _

/-- C3 (amended): the configured `DecimalRound` entries are passed into
the Recorder for iotex and solana cashiers, as the mapping from each
parsed token key to its configured amount; an ethereum-family cashier's
Recorder (forward and reverse alike) instead always receives the empty
decimal-round map, so configured rounding has no effect there. -/
theorem decimalRound_per_branch (ext : Externals) (dec : AddressDecoder) (n : Int)
    (cc1 cc2 cc3 : CashierCfg) (a1 : TokenCashierArgs) (a2 : SolanaCashierArgs)
    (a3 : EthereumCashierArgs)
    (h1 : buildIotexCashier ext dec cc1 = .ok a1)
    (h2 : buildSolanaCashier ext dec cc2 = .ok a2)
    (h3 : buildEthereumCashier ext dec n cc3 = .ok a3) :
    a1.recorder.decimalRound = specDecimalRoundMap (ioKeyOf ext) cc1.DecimalRound ∧
    a2.recorder.decimalRound = specDecimalRoundMap (solKeyOf ext) cc2.DecimalRound ∧
    a3.recorder.decimalRound = [] ∧
    (∀ r, a3.reverseRecorder = some r → r.decimalRound = []) := by
  obtain ⟨_, _, dr1, _, _, _, hdr1, _, ha1⟩ := buildIotexCashier_ok h1
  obtain ⟨_, _, _, _, ha2⟩ := buildSolanaCashier_ok h2
  obtain ⟨_, _, _, _, ha3⟩ := buildEthereumCashier_ok h3
  refine ⟨?_, ?_, ?_, ?_⟩
  · rw [ha1]
    show dr1 = specDecimalRoundMap (ioKeyOf ext) cc1.DecimalRound
    unfold specDecimalRoundMap
    exact buildDecimalRoundIotex_ok ext cc1.DecimalRound [] dr1 hdr1
  · rw [ha2]
    show buildDecimalRoundSolana ext cc2.DecimalRound []
      = specDecimalRoundMap (solKeyOf ext) cc2.DecimalRound
    unfold specDecimalRoundMap
    exact buildDecimalRoundSolana_eq ext cc2.DecimalRound []
  · rw [ha3]
  · intro r hr
    rw [ha3] at hr
    by_cases hrev : cc3.Reverse.CashierContractAddress ≠ "" ∧ cc3.Reverse.TransferTableName ≠ ""
    · rw [if_pos hrev] at hr
      injection hr with hr'
      rw [← hr']
    · rw [if_neg hrev] at hr
      exact Option.noConfusion hr

/-- A configured cashier entry exercising token pairs absent, a decimal
round entry, a reverse section and the per-cashier knobs. -/
def ccDecimal : CashierCfg :=
  { ID := "c1", RelayerURL := "", CashierContractAddress := "0xcc",
    TokenSafeContractAddress := "0xdd", ValidatorContractAddress := "iovalidator",
    TransferTableName := "fwd", TokenPairs := [],
    DecimalRound := [{ Token1 := "0xab", Amount := 2 }], StartBlockHeight := 5,
    Reverse := { TransferTableName := "rev", CashierContractAddress := "0xee",
                 Tokens := ["0xab"] },
    QPSLimit := 3, DisablePull := true }

/-- What `buildIotexCashier extTrivial .eth ccDecimal` constructs. -/
def iotexArgsSample : TokenCashierArgs :=
  { id := "c1", relayerURL := "", cashierContract := [1], validatorBytes := [2],
    recorder := { table := "fwd", pairs := [],
                  decimalRound := [(bytesToEthAddress [1], 2)], decoder := .eth },
    startBlockHeight := 5, decoder := .eth }

/-- What `buildEthereumCashier extTrivial .eth 20 ccDecimal` constructs. -/
def ethArgsSample : EthereumCashierArgs :=
  { id := "c1", relayerURL := "", cashierContract := hexToAddress "0xcc",
    tokenSafeContract := hexToAddress "0xdd", validatorContract := bytesToEthAddress [1],
    recorder := { table := "fwd", pairs := [], decimalRound := [], decoder := .eth },
    startBlockHeight := 5, confirmBlockNumber := 20,
    reverseRecorder := some { table := "rev", pairs := buildReversePairs ["0xab"] [],
                              decimalRound := [], decoder := .eth },
    reverseCashierContract := hexToAddress "0xee" }

/-- What `buildSolanaCashier extTrivial .eth ccDecimal` constructs. -/
def solanaArgsSample : SolanaCashierArgs :=
  { id := "c1", relayerURL := "", cashierContract := ⟨4⟩,
    validatorContract := bytesToEthAddress [1],
    recorder := { table := "fwd", pairs := [], decimalRound := [(⟨4⟩, 2)], decoder := .eth },
    startBlockHeight := 5, qpsLimit := 3, disablePull := true }

/-- Witness for C3 at the concrete configuration `ccDecimal` on all three
source-chain branches. -/
theorem decimalRound_per_branch_witness :
    iotexArgsSample.recorder.decimalRound
      = specDecimalRoundMap (ioKeyOf extTrivial) ccDecimal.DecimalRound ∧
    solanaArgsSample.recorder.decimalRound
      = specDecimalRoundMap (solKeyOf extTrivial) ccDecimal.DecimalRound ∧
    ethArgsSample.recorder.decimalRound = [] ∧
    (∀ r, ethArgsSample.reverseRecorder = some r → r.decimalRound = []) :=
  decimalRound_per_branch extTrivial .eth 20 ccDecimal ccDecimal ccDecimal
    iotexArgsSample solanaArgsSample ethArgsSample rfl rfl rfl

/-- C3 counterexample: on the ethereum branch the configured, non-empty
`DecimalRound` list reaches the Recorder as the empty map — the entry
for token `0xab` is dropped wholesale. -/
theorem decimalRound_dropped_on_ethereum :
    (buildEthereumCashier extTrivial AddressDecoder.eth 20 ccDecimal).map
        (fun a => a.recorder.decimalRound) = .ok [] ∧
    ccDecimal.DecimalRound = [{ Token1 := "0xab", Amount := 2 }] ∧
    specDecimalRoundMap (fun t => some (hexToAddress t)) ccDecimal.DecimalRound
      = [(hexToAddress "0xab", 2)] :=
  ⟨rfl, rfl, rfl⟩

/-- C4 (amended): the confirm-block depth an ethereum-family cashier is
constructed with is `uint8(cfg.ConfirmBlockNumber)`, the configured value
reduced modulo 256; it equals the configured value exactly when that
value lies in 0..255. -/
theorem confirmBlockNumber_uint8 (ext : Externals) (dec : AddressDecoder) (n : Int)
    (cc : CashierCfg) (args : EthereumCashierArgs)
    (h : buildEthereumCashier ext dec n cc = .ok args) :
    args.confirmBlockNumber = toUint8 n ∧
    (((toUint8 n : Nat) : Int) = n ↔ 0 ≤ n ∧ n < 256) := by
  obtain ⟨_, _, _, _, ha⟩ := buildEthereumCashier_ok h
  subst ha
  refine ⟨rfl, ?_⟩
  have ht : toUint8 n = (n % 256).toNat := rfl
  rw [ht]
  omega

/-- Witness for C4 at the configured depth 20. -/
theorem confirmBlockNumber_uint8_witness :
    ethArgsSample.confirmBlockNumber = toUint8 20 ∧
    (((toUint8 20 : Nat) : Int) = 20 ↔ 0 ≤ (20 : Int) ∧ (20 : Int) < 256) :=
  confirmBlockNumber_uint8 extTrivial .eth 20 ccDecimal ethArgsSample rfl

/-- C4 counterexample: a configured `ConfirmBlockNumber` of 256 reaches
the cashier as a confirm-block depth of 0; the enforced depth is not the
configured value. -/
theorem confirmBlockNumber_256_truncates :
    (buildEthereumCashier extTrivial AddressDecoder.eth 256 ccDecimal).map
        (fun a => a.confirmBlockNumber) = .ok 0 ∧
    (256 : Int) ≠ ((0 : Nat) : Int) :=
  ⟨rfl, by decide⟩

/-- Members of an overwriting insertion are old members or the new pair. -/
theorem insertOver_mem {κ υ : Type} [DecidableEq κ] (m : List (κ × υ)) (k : κ) (v : υ) :
    ∀ kv ∈ insertOver m k v, kv ∈ m ∨ kv = (k, v) := by
  intro kv hkv
  unfold insertOver at hkv
  split at hkv
  · obtain ⟨kv', hkv', heq⟩ := List.mem_map.mp hkv
    by_cases hk : kv'.1 = k
    · right; rw [if_pos hk] at heq; exact heq.symm
    · left; rw [if_neg hk] at heq; exact heq ▸ hkv'
  · rcases List.mem_append.mp hkv with hm | hs
    · exact Or.inl hm
    · right; simpa using hs

/-- Every pair of the reverse token map sends an address to itself. -/
theorem buildReversePairs_self :
    ∀ (tokens : List String) (m : List (EthAddress × UAddr)),
      (∀ kv ∈ m, kv.2 = ethAddressToAddress kv.1) →
      ∀ kv ∈ buildReversePairs tokens m, kv.2 = ethAddressToAddress kv.1 := by
  intro tokens
  induction tokens with
  | nil => intro m hm kv hkv; exact hm kv hkv
  | cons t rest ih =>
    intro m hm kv hkv
    refine ih _ ?_ kv hkv
    intro kv' hkv'
    rcases insertOver_mem _ _ _ kv' hkv' with hmem | heq
    · exact hm kv' hmem
    · rw [heq]

/-- C7: a reverse Recorder is constructed if and only if both the reverse
cashier contract address and the reverse transfer table name are
non-empty, and when constructed it uses the reverse transfer table name
as its own storage scope, with each reverse token mapped to itself. -/
theorem reverseRecorder_spec (ext : Externals) (dec : AddressDecoder) (n : Int)
    (cc : CashierCfg) (args : EthereumCashierArgs)
    (h : buildEthereumCashier ext dec n cc = .ok args) :
    (args.reverseRecorder.isSome = true ↔
      (cc.Reverse.CashierContractAddress ≠ "" ∧ cc.Reverse.TransferTableName ≠ "")) ∧
    (∀ r, args.reverseRecorder = some r →
      r.table = cc.Reverse.TransferTableName ∧
      r.pairs = buildReversePairs cc.Reverse.Tokens [] ∧
      ∀ kv ∈ r.pairs, kv.2 = ethAddressToAddress kv.1) := by
  obtain ⟨_, _, _, _, ha⟩ := buildEthereumCashier_ok h
  subst ha
  dsimp only
  by_cases hrev : cc.Reverse.CashierContractAddress ≠ "" ∧ cc.Reverse.TransferTableName ≠ ""
  · rw [if_pos hrev]
    refine ⟨by simp [hrev], ?_⟩
    intro r hr
    injection hr with hr'
    subst hr'
    refine ⟨rfl, rfl, ?_⟩
    intro kv hkv
    exact buildReversePairs_self cc.Reverse.Tokens []
      (fun kv' hkv' => absurd hkv' (List.not_mem_nil kv')) kv hkv
  · rw [if_neg hrev]
    refine ⟨by simp [hrev], ?_⟩
    intro r hr
    exact Option.noConfusion hr

/-- Witness for C7 at the concrete configuration `ccDecimal`, whose
reverse section is fully configured. -/
theorem reverseRecorder_spec_witness :
    (ethArgsSample.reverseRecorder.isSome = true ↔
      (ccDecimal.Reverse.CashierContractAddress ≠ "" ∧
       ccDecimal.Reverse.TransferTableName ≠ "")) ∧
    (∀ r, ethArgsSample.reverseRecorder = some r →
      r.table = ccDecimal.Reverse.TransferTableName ∧
      r.pairs = buildReversePairs ccDecimal.Reverse.Tokens [] ∧
      ∀ kv ∈ r.pairs, kv.2 = ethAddressToAddress kv.1) :=
  reverseRecorder_spec extTrivial .eth 20 ccDecimal ethArgsSample rfl

/-- C8 (amended): `StartBlockHeight` is a per-cashier setting on every
source-chain branch, and `QPSLimit` and `DisablePull` are per-cashier
settings consumed by the solana cashier constructor; but
`DisableTransferSubmit` is a single service-wide setting taken from the
top-level configuration and passed once to `NewService`. -/
theorem knobs_per_cashier (ext : Externals) (dec : AddressDecoder) (n : Int)
    (cfg : Configuration) (cc1 cc2 cc3 : CashierCfg)
    (a1 : TokenCashierArgs) (a2 : EthereumCashierArgs) (a3 : SolanaCashierArgs)
    (h1 : buildIotexCashier ext dec cc1 = .ok a1)
    (h2 : buildEthereumCashier ext dec n cc2 = .ok a2)
    (h3 : buildSolanaCashier ext dec cc3 = .ok a3) :
    a1.startBlockHeight = toUint64 cc1.StartBlockHeight ∧
    a2.startBlockHeight = toUint64 cc2.StartBlockHeight ∧
    a3.startBlockHeight = toUint64 cc3.StartBlockHeight ∧
    a3.qpsLimit = cc3.QPSLimit ∧
    a3.disablePull = cc3.DisablePull ∧
    (serviceArgsOf cfg).disableTransferSubmit = cfg.DisableTransferSubmit := by
  obtain ⟨_, _, _, _, _, _, _, _, ha1⟩ := buildIotexCashier_ok h1
  obtain ⟨_, _, _, _, ha2⟩ := buildEthereumCashier_ok h2
  obtain ⟨_, _, _, _, ha3⟩ := buildSolanaCashier_ok h3
  subst ha1; subst ha2; subst ha3
  exact ⟨rfl, rfl, rfl, rfl, rfl, rfl⟩

/-- A solana-chain configuration with two cashiers and submission
disabled service-wide. -/
def cfgSolTwoA : Configuration :=
  { Chain := "solana", ClientURL := "", RelayerURL := "", PrivateKey := "",
    ConfirmBlockNumber := 20, BatchSize := 100, Interval := 60,
    DisableTransferSubmit := true,
    Cashiers := [{ ccDecimal with ID := "s1" }, { ccDecimal with ID := "s2" }],
    DestinationChain := "solana" }

/-- The same configuration with submission enabled. -/
def cfgSolTwoB : Configuration := { cfgSolTwoA with DisableTransferSubmit := false }

/-- Witness for C8 at the concrete configuration `ccDecimal` on all three
branches and the service arguments of `cfgSolTwoA`. -/
theorem knobs_per_cashier_witness :
    iotexArgsSample.startBlockHeight = toUint64 ccDecimal.StartBlockHeight ∧
    ethArgsSample.startBlockHeight = toUint64 ccDecimal.StartBlockHeight ∧
    solanaArgsSample.startBlockHeight = toUint64 ccDecimal.StartBlockHeight ∧
    solanaArgsSample.qpsLimit = ccDecimal.QPSLimit ∧
    solanaArgsSample.disablePull = ccDecimal.DisablePull ∧
    (serviceArgsOf cfgSolTwoA).disableTransferSubmit = cfgSolTwoA.DisableTransferSubmit :=
  knobs_per_cashier extTrivial .eth 20 cfgSolTwoA ccDecimal ccDecimal ccDecimal
    iotexArgsSample ethArgsSample solanaArgsSample rfl rfl rfl

/-- C8 counterexample: flipping `DisableTransferSubmit` between two
otherwise identical two-cashier configurations changes none of the
cashier constructions and only the single service-level flag — no
cashier is constructed with its own value of that knob. -/
theorem disableTransferSubmit_not_per_cashier :
    buildCashiers extTrivial AddressDecoder.sol cfgSolTwoA
      = buildCashiers extTrivial AddressDecoder.sol cfgSolTwoB ∧
    (serviceArgsOf cfgSolTwoA).disableTransferSubmit = true ∧
    (serviceArgsOf cfgSolTwoB).disableTransferSubmit = false ∧
    cfgSolTwoA.Cashiers.length = 2 ∧
    cfgSolTwoA = { cfgSolTwoB with DisableTransferSubmit := true } :=
  ⟨rfl, rfl, rfl, rfl, rfl⟩

/-! ## Replay: error propagation and range semantics -/

/-- Heights processed by the height loop either succeeded, or the loop
ended fatally with the failing height as the last one processed. -/
theorem loopFrom_invariant (process : Nat → Except String Unit) (endH : Nat) :
    ∀ (fuel h : Nat) (l : List Nat) (res : RunResult),
      loopFrom process endH fuel h = (l, res) →
      (∀ x ∈ l, process x = .ok () ∨
        ∃ e, process x = .error e ∧ res = .fatal e ∧ l.getLast? = some x) ∧
      (res = .ok → ∀ x ∈ l, process x = .ok ()) := by
  intro fuel
  induction fuel with
  | zero =>
    intro h l res heq
    unfold loopFrom at heq
    by_cases hlt : endH < h
    · rw [if_pos hlt] at heq
      injection heq with h1 h2
      subst h1
      exact ⟨fun x hx => absurd hx (List.not_mem_nil x),
             fun _ x hx => absurd hx (List.not_mem_nil x)⟩
    · rw [if_neg hlt] at heq
      dsimp only at heq
      injection heq with h1 h2
      subst h1
      exact ⟨fun x hx => absurd hx (List.not_mem_nil x),
             fun _ x hx => absurd hx (List.not_mem_nil x)⟩
  | succ fuel' ih =>
    intro h l res heq
    unfold loopFrom at heq
    by_cases hlt : endH < h
    · rw [if_pos hlt] at heq
      injection heq with h1 h2
      subst h1
      exact ⟨fun x hx => absurd hx (List.not_mem_nil x),
             fun _ x hx => absurd hx (List.not_mem_nil x)⟩
    · rw [if_neg hlt] at heq
      dsimp only at heq
      cases hp : process h with
      | error e =>
        rw [hp] at heq
        injection heq with h1 h2
        subst h1; subst h2
        constructor
        · intro x hx
          rw [List.mem_singleton] at hx
          subst hx
          exact Or.inr ⟨e, hp, rfl, rfl⟩
        · intro hok
          exact RunResult.noConfusion hok
      | ok u =>
        cases u
        rw [hp] at heq
        dsimp only at heq
        obtain ⟨ih1, ih2⟩ := ih ((h + 1) % 2 ^ 64) _ _ rfl
        injection heq with h1 h2
        subst h1; subst h2
        constructor
        · intro x hx
          rcases List.mem_cons.mp hx with rfl | hx'
          · exact Or.inl hp
          · rcases ih1 x hx' with hok | ⟨e, he, hres, hlast⟩
            · exact Or.inl hok
            · refine Or.inr ⟨e, he, hres, ?_⟩
              cases hl' : (loopFrom process endH fuel' ((h + 1) % 2 ^ 64)).1 with
              | nil => rw [hl'] at hlast; exact Option.noConfusion hlast
              | cons y ys =>
                rw [hl'] at hlast
                rw [List.getLast?_cons_cons]
                exact hlast
        · intro hok x hx
          rcases List.mem_cons.mp hx with rfl | hx'
          · exact hp
          · exact ih2 hok x hx'

/-- The invariant lifted through the parsing of one `-blocks` item. -/
theorem runItem_invariant (process : Nat → Except String Unit) (fuel : Nat)
    (cs : List Char) (l : List Nat) (res : RunResult)
    (heq : runItem process fuel cs = (l, res)) :
    (∀ x ∈ l, process x = .ok () ∨
      ∃ e, process x = .error e ∧ res = .fatal e ∧ l.getLast? = some x) ∧
    (res = .ok → ∀ x ∈ l, process x = .ok ()) := by
  unfold runItem at heq
  cases hp : parseItem cs with
  | error e =>
    rw [hp] at heq
    injection heq with h1 h2
    subst h1
    exact ⟨fun x hx => absurd hx (List.not_mem_nil x),
           fun _ x hx => absurd hx (List.not_mem_nil x)⟩
  | ok se =>
    rw [hp] at heq
    exact loopFrom_invariant process se.2 fuel se.1 l res heq

/-- The invariant lifted through the comma-separated item list. -/
theorem runBlocks_invariant (process : Nat → Except String Unit) (fuel : Nat) :
    ∀ (items : List (List Char)) (l : List Nat) (res : RunResult),
      runBlocks process fuel items = (l, res) →
      (∀ x ∈ l, process x = .ok () ∨
        ∃ e, process x = .error e ∧ res = .fatal e ∧ l.getLast? = some x) ∧
      (res = .ok → ∀ x ∈ l, process x = .ok ()) := by
  intro items
  induction items with
  | nil =>
    intro l res heq
    injection heq with h1 h2
    subst h1
    exact ⟨fun x hx => absurd hx (List.not_mem_nil x),
           fun _ x hx => absurd hx (List.not_mem_nil x)⟩
  | cons item rest ih =>
    intro l res heq
    unfold runBlocks at heq
    cases hri : runItem process fuel item with
    | mk l1 res1 =>
      rw [hri] at heq
      obtain ⟨it1, it2⟩ := runItem_invariant process fuel item l1 res1 hri
      cases res1 with
      | ok =>
        dsimp only at heq
        obtain ⟨ih1, ih2⟩ := ih _ _ rfl
        injection heq with h1 h2
        subst h1; subst h2
        have hl1ok : ∀ x ∈ l1, process x = .ok () := it2 rfl
        constructor
        · intro x hx
          rcases List.mem_append.mp hx with hx1 | hx2
          · exact Or.inl (hl1ok x hx1)
          · rcases ih1 x hx2 with hok | ⟨e, he, hres, hlast⟩
            · exact Or.inl hok
            · refine Or.inr ⟨e, he, hres, ?_⟩
              cases hl2 : (runBlocks process fuel rest).1 with
              | nil => rw [hl2] at hlast; exact Option.noConfusion hlast
              | cons y ys =>
                rw [hl2] at hlast
                rw [List.getLast?_append_cons]
                exact hlast
        · intro hok x hx
          rcases List.mem_append.mp hx with hx1 | hx2
          · exact hl1ok x hx1
          · exact ih2 hok x hx2
      | fatal msg =>
        dsimp only at heq
        injection heq with h1 h2
        subst h1; subst h2
        exact ⟨it1, it2⟩
      | outOfFuel =>
        dsimp only at heq
        injection heq with h1 h2
        subst h1; subst h2
        exact ⟨it1, it2⟩

/-- C6: in bounded replay, every processed height either succeeded, or
the run terminated fatally at it with that height as the very last one
processed — no later height of the requested ranges is processed and no
height is skipped past an error; a run that completes processed only
successes. -/
theorem replay_stops_at_error (process : Nat → Except String Unit) (fuel : Nat)
    (blocks : List Char) (hs : List Nat) (r : RunResult)
    (h : replayRun process fuel blocks = (hs, r)) :
    (∀ x ∈ hs, process x = .ok () ∨
      ∃ e, process x = .error e ∧ r = .fatal e ∧ hs.getLast? = some x) ∧
    (r = .ok → ∀ x ∈ hs, process x = .ok ()) :=
  runBlocks_invariant process fuel (splitComma blocks) hs r h

/-- A process that fails exactly at height 5. -/
def procBoom : Nat → Except String Unit :=
  fun h => if h = 5 then .error "boom" else .ok ()

/-- Witness for C6: replaying "3-7,9" with a failure at height 5 stops
the run at [3, 4, 5] with the fatal outcome. -/
theorem replay_stops_at_error_witness :
    (∀ x ∈ ([3, 4, 5] : List Nat), procBoom x = .ok () ∨
      ∃ e, procBoom x = .error e ∧ RunResult.fatal "boom" = .fatal e ∧
        ([3, 4, 5] : List Nat).getLast? = some x) ∧
    (RunResult.fatal "boom" = .ok → ∀ x ∈ ([3, 4, 5] : List Nat), procBoom x = .ok ()) :=
  replay_stops_at_error procBoom 100 ("3-7,9".data) [3, 4, 5] (.fatal "boom") rfl

/-- Splitting of a Boolean conjunction of `List.all` over a cons cell. -/
theorem all_cons_split {c : Char} {rest : List Char}
    (h : (c :: rest).all Char.isDigit = true) :
    c.isDigit = true ∧ rest.all Char.isDigit = true := by
  rw [List.all_cons] at h
  exact ⟨(Bool.and_eq_true _ _).mp h |>.1, (Bool.and_eq_true _ _).mp h |>.2⟩

/-- A digit is never the dash, so the range regexp rejects pure digits. -/
theorem rangeSplitAux_all_digits :
    ∀ (cs acc : List Char), cs.all Char.isDigit = true → rangeSplitAux acc cs = none := by
  intro cs
  induction cs with
  | nil => intro acc _; rfl
  | cons c rest ih =>
    intro acc hall
    obtain ⟨hc, hrest⟩ := all_cons_split hall
    have hne : ¬(c = '-') := fun hceq => by subst hceq; exact absurd hc (by decide)
    show (if c = '-' then
            if rest.all Char.isDigit = true then some (acc.reverse, rest) else none
          else if c.isDigit = true then rangeSplitAux (c :: acc) rest else none) = none
    rw [if_neg hne, if_pos hc]
    exact ih _ hrest

/-- The range regexp on digits, a dash, digits extracts the two groups. -/
theorem rangeSplitAux_digits_dash :
    ∀ (A acc B : List Char), A.all Char.isDigit = true → B.all Char.isDigit = true →
      rangeSplitAux acc (A ++ '-' :: B) = some (acc.reverse ++ A, B) := by
  intro A
  induction A with
  | nil =>
    intro acc B _ hB
    rw [List.nil_append]
    show (if '-' = '-' then
            if B.all Char.isDigit = true then some (acc.reverse, B) else none
          else if Char.isDigit '-' = true then rangeSplitAux ('-' :: acc) B else none)
        = some (acc.reverse ++ [], B)
    rw [if_pos rfl, if_pos hB, List.append_nil]
  | cons c A' ih =>
    intro acc B hA hB
    obtain ⟨hc, hA'⟩ := all_cons_split hA
    have hne : ¬(c = '-') := fun hceq => by subst hceq; exact absurd hc (by decide)
    rw [List.cons_append]
    show (if c = '-' then
            if (A' ++ '-' :: B).all Char.isDigit = true then
              some (acc.reverse, A' ++ '-' :: B) else none
          else if c.isDigit = true then rangeSplitAux (c :: acc) (A' ++ '-' :: B) else none)
        = some (acc.reverse ++ c :: A', B)
    rw [if_neg hne, if_pos hc]
    rw [ih (c :: acc) B hA' hB]
    rw [List.reverse_cons, List.append_assoc]
    rfl

/-- The range regexp on a full `a-b` item. -/
theorem rangeSplit_digits_dash (A B : List Char) (hA : A.all Char.isDigit = true)
    (hB : B.all Char.isDigit = true) :
    rangeSplit (A ++ '-' :: B) = some (A, B) := by
  unfold rangeSplit
  rw [rangeSplitAux_digits_dash A [] B hA hB]
  rw [List.reverse_nil, List.nil_append]

/-- `ParseUint` accepts a non-empty digit string within `uint64` range. -/
theorem parseUint64_digits (cs : List Char) (h1 : cs ≠ []) (h2 : cs.all Char.isDigit = true)
    (h3 : digitsToNat cs < 2 ^ 64) : parseUint64 cs = some (digitsToNat cs) := by
  unfold parseUint64
  rw [if_neg h1, if_pos h2, if_pos h3]

/-- `ParseUint` only produces values below `2 ^ 64`. -/
theorem parseUint64_lt (cs : List Char) (v : Nat) (h : parseUint64 cs = some v) :
    v < 2 ^ 64 := by
  unfold parseUint64 at h
  split at h
  · exact Option.noConfusion h
  · split at h
    · split at h
      · injection h with h'
        subst h'
        assumption
      · exact Option.noConfusion h
    · exact Option.noConfusion h

/-- A `-blocks` item made of digits alone parses to the single height. -/
theorem parseItem_single (cs : List Char) (h1 : cs ≠ []) (h2 : cs.all Char.isDigit = true)
    (h3 : digitsToNat cs < 2 ^ 64) :
    parseItem cs = .ok (digitsToNat cs, digitsToNat cs) := by
  unfold parseItem rangeSplit
  rw [rangeSplitAux_all_digits cs [] h2]
  dsimp only
  rw [parseUint64_digits cs h1 h2 h3]

/-- A `-blocks` item of the form `a-b` parses to the two bounds. -/
theorem parseItem_range (A B : List Char) (hA1 : A ≠ []) (hA2 : A.all Char.isDigit = true)
    (hA3 : digitsToNat A < 2 ^ 64) (hB1 : B ≠ []) (hB2 : B.all Char.isDigit = true)
    (hB3 : digitsToNat B < 2 ^ 64) :
    parseItem (A ++ '-' :: B) = .ok (digitsToNat A, digitsToNat B) := by
  unfold parseItem
  rw [rangeSplit_digits_dash A B hA2 hB2]
  dsimp only
  rw [parseUint64_digits A hA1 hA2 hA3]
  dsimp only
  rw [parseUint64_digits B hB1 hB2 hB3]

/-- Any parsed bounds are below `2 ^ 64`. -/
theorem parseItem_lt (cs : List Char) (a b : Nat) (h : parseItem cs = .ok (a, b)) :
    a < 2 ^ 64 ∧ b < 2 ^ 64 := by
  unfold parseItem at h
  cases hr : rangeSplit cs with
  | some p =>
    obtain ⟨pA, pB⟩ := p
    rw [hr] at h
    dsimp only at h
    cases h1 : parseUint64 pA with
    | none => rw [h1] at h; exact Except.noConfusion h
    | some va =>
      rw [h1] at h
      dsimp only at h
      cases h2 : parseUint64 pB with
      | none => rw [h2] at h; exact Except.noConfusion h
      | some vb =>
        rw [h2] at h
        injection h with h'
        injection h' with ha hb
        subst ha; subst hb
        exact ⟨parseUint64_lt pA va h1, parseUint64_lt pB vb h2⟩
  | none =>
    rw [hr] at h
    dsimp only at h
    cases h1 : parseUint64 cs with
    | none => rw [h1] at h; exact Except.noConfusion h
    | some v =>
      rw [h1] at h
      injection h with h'
      injection h' with ha hb
      subst ha; subst hb
      exact ⟨parseUint64_lt cs v h1, parseUint64_lt cs v h1⟩

/-- With an error-free process, enough fuel, and an end bound below the
`uint64` maximum, the height loop processes exactly the ascending range
and completes. -/
theorem loopFrom_all_ok (process : Nat → Except String Unit)
    (hall : ∀ x, process x = .ok ()) (endH : Nat) (hend : endH < 2 ^ 64 - 1) :
    ∀ (fuel h : Nat), h < 2 ^ 64 → endH + 1 - h ≤ fuel →
      loopFrom process endH fuel h = (List.range' h (endH + 1 - h), .ok) := by
  intro fuel
  induction fuel with
  | zero =>
    intro h hh hf
    have hlt : endH < h := by omega
    have h0 : endH + 1 - h = 0 := by omega
    rw [h0]
    unfold loopFrom
    rw [if_pos hlt]
    rfl
  | succ fuel' ih =>
    intro h hh hf
    by_cases hlt : endH < h
    · have h0 : endH + 1 - h = 0 := by omega
      rw [h0]
      unfold loopFrom
      rw [if_pos hlt]
      rfl
    · unfold loopFrom
      rw [if_neg hlt]
      dsimp only
      rw [hall h]
      dsimp only
      have hmod : (h + 1) % 2 ^ 64 = h + 1 := Nat.mod_eq_of_lt (by omega)
      rw [hmod]
      rw [ih (h + 1) (by omega) (by omega)]
      have hsucc : endH + 1 - h = (endH + 1 - (h + 1)) + 1 := by omega
      rw [hsucc]
      rfl

/-- One parsed item with an error-free process runs the ascending range
`start..end` (empty when start exceeds end) and completes. -/
theorem runItem_ranges (process : Nat → Except String Unit)
    (hall : ∀ x, process x = .ok ()) (fuel a b : Nat) (cs : List Char)
    (hparse : parseItem cs = .ok (a, b)) (hb : b < 2 ^ 64 - 1)
    (hfuel : b + 1 - a ≤ fuel) :
    runItem process fuel cs = (List.range' a (b + 1 - a), .ok) := by
  have ha : a < 2 ^ 64 := (parseItem_lt cs a b hparse).1
  unfold runItem
  rw [hparse]
  exact loopFrom_all_ok process hall b hb fuel a ha hfuel

/-- When every item of the list runs to completion, the whole run
processes the items left to right, concatenating their height traces. -/
theorem runBlocks_all_ok (process : Nat → Except String Unit) (fuel : Nat) :
    ∀ (items : List (List Char)),
      (∀ item ∈ items, (runItem process fuel item).2 = .ok) →
      runBlocks process fuel items
        = ((items.map fun i => (runItem process fuel i).1).flatten, .ok) := by
  intro items
  induction items with
  | nil => intro _; rfl
  | cons item rest ih =>
    intro hall
    have hhead : (runItem process fuel item).2 = .ok :=
      hall item (List.mem_cons_self item rest)
    unfold runBlocks
    rw [show runItem process fuel item = ((runItem process fuel item).1, RunResult.ok) from by
      rw [← hhead]]
    dsimp only
    rw [ih (fun i hi => hall i (List.mem_cons_of_mem item hi))]
    rfl

/-- C10 (amended): a `-blocks` item of digits parses to that single
height and an `a-b` item to the bounds `(a, b)`; an error-free run of a
parsed item processes exactly the heights `a` through `b` inclusive in
ascending order — zero heights, completing successfully, when `a > b` —
provided `b < 2^64 - 1` (at `b = 2^64 - 1` the `uint64` height counter
wraps and the loop never exits); a comma-separated list is processed
left to right. -/
theorem blocks_argument_semantics (process : Nat → Except String Unit)
    (fuel a b : Nat) (sing A B cs : List Char) (items : List (List Char))
    (hall : ∀ x, process x = .ok ())
    (hs1 : sing ≠ []) (hs2 : sing.all Char.isDigit = true)
    (hs3 : digitsToNat sing < 2 ^ 64)
    (hA1 : A ≠ []) (hA2 : A.all Char.isDigit = true) (hA3 : digitsToNat A < 2 ^ 64)
    (hB1 : B ≠ []) (hB2 : B.all Char.isDigit = true) (hB3 : digitsToNat B < 2 ^ 64)
    (hparse : parseItem cs = .ok (a, b)) (hb : b < 2 ^ 64 - 1)
    (hfuel : b + 1 - a ≤ fuel)
    (hitems : ∀ item ∈ items, (runItem process fuel item).2 = .ok) :
    parseItem sing = .ok (digitsToNat sing, digitsToNat sing) ∧
    parseItem (A ++ '-' :: B) = .ok (digitsToNat A, digitsToNat B) ∧
    runItem process fuel cs = (List.range' a (b + 1 - a), .ok) ∧
    (b < a → runItem process fuel cs = ([], .ok)) ∧
    runBlocks process fuel items
      = ((items.map fun i => (runItem process fuel i).1).flatten, .ok) := by
  refine ⟨parseItem_single sing hs1 hs2 hs3,
          parseItem_range A B hA1 hA2 hA3 hB1 hB2 hB3,
          runItem_ranges process hall fuel a b cs hparse hb hfuel, ?_,
          runBlocks_all_ok process fuel items hitems⟩
  intro hba
  have h0 : b + 1 - a = 0 := by omega
  have hr := runItem_ranges process hall fuel a b cs hparse hb hfuel
  rw [h0] at hr
  exact hr

/-- A process that always succeeds. -/
def procOk : Nat → Except String Unit := fun _ => .ok ()

/-- Witness for C10 on the items "12", "3-7" and the list "2", "4-5". -/
theorem blocks_argument_semantics_witness :
    parseItem ("12".data) = .ok (digitsToNat ("12".data), digitsToNat ("12".data)) ∧
    parseItem (("3".data) ++ '-' :: ("7".data))
      = .ok (digitsToNat ("3".data), digitsToNat ("7".data)) ∧
    runItem procOk 10 ("3-7".data) = (List.range' 3 (7 + 1 - 3), .ok) ∧
    (7 < 3 → runItem procOk 10 ("3-7".data) = ([], .ok)) ∧
    runBlocks procOk 10 ["2".data, "4-5".data]
      = ((["2".data, "4-5".data].map fun i => (runItem procOk 10 i).1).flatten, .ok) :=
  blocks_argument_semantics procOk 10 3 7 ("12".data) ("3".data) ("7".data) ("3-7".data)
    ["2".data, "4-5".data] (fun _ => rfl) (by decide) (by decide) (by decide)
    (by decide) (by decide) (by decide) (by decide) (by decide) (by decide)
    rfl (by decide) (by decide) (by decide)

/-- At the maximal end bound the wrapped height counter stays below the
bound, so the loop never reaches the completed outcome. -/
theorem loopFrom_max_no_ok :
    ∀ (k h : Nat), h < 2 ^ 64 → (loopFrom procOk (2 ^ 64 - 1) k h).2 ≠ RunResult.ok := by
  intro k
  induction k with
  | zero =>
    intro h hh
    unfold loopFrom
    rw [if_neg (by omega : ¬(2 ^ 64 - 1 < h))]
    intro hcontra
    exact RunResult.noConfusion hcontra
  | succ k' ih =>
    intro h hh
    unfold loopFrom
    rw [if_neg (by omega : ¬(2 ^ 64 - 1 < h))]
    dsimp only [procOk]
    exact ih ((h + 1) % 2 ^ 64) (Nat.mod_lt _ (by omega))

/-- C10 counterexample: the single height 18446744073709551615 (2^64-1)
parses, but the replay loop on it never completes — three modelled
iterations have already invoked the processor on the heights 2^64-1, 0
and 1, the latter two outside the requested singleton range. -/
theorem blocks_max_height_never_completes :
    (¬ ∃ k, (runItem procOk k (String.data "18446744073709551615")).2 = RunResult.ok) ∧
    runItem procOk 3 (String.data "18446744073709551615")
      = ([2 ^ 64 - 1, 0, 1], RunResult.outOfFuel) ∧
    parseItem (String.data "18446744073709551615") = .ok (2 ^ 64 - 1, 2 ^ 64 - 1) := by
  have hparse : parseItem (String.data "18446744073709551615")
      = .ok (2 ^ 64 - 1, 2 ^ 64 - 1) := by rfl
  refine ⟨?_, by rfl, hparse⟩
  rintro ⟨k, hk⟩
  have heq : runItem procOk k (String.data "18446744073709551615")
      = loopFrom procOk (2 ^ 64 - 1) k (2 ^ 64 - 1) := by
    unfold runItem
    rw [hparse]
  rw [heq] at hk
  exact loopFrom_max_no_ok k (2 ^ 64 - 1) (by omega) hk

end IoTube
